import Mathlib

/-!
Verification of the engagement-analytics core of `src/app.py` (announcement
open/acknowledge tracker).

Modelling conventions for the shallow embedding:

* Python floats are modelled as exact rationals (`ℚ`); `round(x, n)` is
  `roundTo n x` below.
* Timestamps are modelled as already-parsed values: the `timestamp` field of
  an event is `Option ℚ`, standing for the result of
  `parse_iso_timestamp(event.get("timestamp"))` measured in epoch seconds;
  `none` is a missing or unparsable timestamp.  (`datetime` values are always
  truthy in Python, so truthiness tests on parsed timestamps reduce to
  `is not None` tests.)
* Python dicts preserve insertion order; they are modelled as association
  lists where updating an existing key keeps its position and a fresh key is
  appended at the end (`setA`), exactly matching `dict.setdefault` /
  `defaultdict` behaviour.
* The sklearn KMeans backend is external to the repository; `profile_users`
  is parameterised by its availability and by an abstract
  `fit_predict : List (List ℚ) → Except Unit (List ℤ)` that may fail, with
  failure standing for a raised exception (caught by the `try/except` in
  `profile_users`, lines 285-312 of `src/app.py`).
-/

/-- A tracking event as consumed by the analytics core: the fields read by
`build_user_stats` from the decoded JSON record.  `kind` is
`event.get("event")`. -/
structure Event where
  kind : Option String
  announcementId : Option Int
  user : Option String
  target : Option String
  timestamp : Option ℚ
deriving DecidableEq

/-- One entry of a per-key FIFO queue of opened events
(`open_events[key].append({...})`, lines 211-217). -/
structure OpenEntry where
  timestamp : ℚ
  target : String
  announcementId : Option Int
deriving DecidableEq

/-- Per-user aggregate statistics (the dict created by
`user_stats.setdefault`, lines 190-199). -/
structure UserStats where
  open_count : Nat
  ack_count : Nat
  ack_delays : List ℚ
  last_event_ts : Option ℚ
  targets : Finset String
deriving DecidableEq

/-- The fresh statistics record inserted for a user on first sight
(lines 192-198). -/
def freshStats : UserStats :=
  { open_count := 0, ack_count := 0, ack_delays := [], last_event_ts := none,
    targets := ∅ }

/-- An opened-but-never-acknowledged session
(`outstanding_by_user[user].append({...})`, lines 231-237). -/
structure Outstanding where
  announcementId : Option Int
  opened_at : ℚ
  target : String
deriving DecidableEq

/-- Lookup in an insertion-ordered association list (Python dict read). -/
def lookupA {α β : Type} [DecidableEq α] : List (α × β) → α → Option β
  | [], _ => none
  | (k, v) :: rest, a => if k = a then some v else lookupA rest a

/-- Update an insertion-ordered association list: an existing key keeps its
position, a new key is appended at the end (Python dict write). -/
def setA {α β : Type} [DecidableEq α] : List (α × β) → α → β → List (α × β)
  | [], a, b => [(a, b)]
  | (k, v) :: rest, a, b =>
      if k = a then (k, b) :: rest else (k, v) :: setA rest a b

/-- The pairing key `(announcementId, user)` (line 206). -/
abbrev PairKey : Type := Option Int × String

/-- Python's `str.strip()`: drop whitespace from both ends, modelled on the
character list of the string. -/
def pyStrip (s : String) : String :=
  ⟨((s.data.dropWhile Char.isWhitespace).reverse.dropWhile
      Char.isWhitespace).reverse⟩

/-- Embedding of `normalize_user` (lines 163-165): strip whitespace, defaulting blank or
missing users to `"anonymous"`. -/
def normalize_user (value : Option String) : String :=
  let user := pyStrip (value.getD "")
  if user = "" then "anonymous" else user

/-- The per-user statistics update performed by one iteration of the event
loop (lines 201-225): bump `last_event_ts` for a parsable timestamp that is
strictly newer, record a non-empty target, then dispatch on the event kind;
`q` is the current FIFO queue of the event's pairing key. -/
def statsAfter (kind : Option String) (timestamp : Option ℚ) (target : String)
    (q : List OpenEntry) (stats0 : UserStats) : UserStats :=
  let s1 :=
    match timestamp, stats0.last_event_ts with
    | some t, none => { stats0 with last_event_ts := some t }
    | some t, some prev =>
        if prev < t then { stats0 with last_event_ts := some t } else stats0
    | none, _ => stats0
  let s2 :=
    if target ≠ "" then { s1 with targets := insert target s1.targets } else s1
  if kind = some "opened" then { s2 with open_count := s2.open_count + 1 }
  else if kind = some "acknowledged" then
    let s3 := { s2 with ack_count := s2.ack_count + 1 }
    match timestamp, q with
    | some t, en :: _ =>
        if en.timestamp ≤ t then
          { s3 with ack_delays := s3.ack_delays ++ [t - en.timestamp] }
        else s3
    | _, _ => s3
  else s2

/-- The mutable state threaded through the scan of `build_user_stats`:
the `user_stats` dict and the `open_events` defaultdict of FIFO queues. -/
structure BuildState where
  user_stats : List (String × UserStats)
  open_events : List (PairKey × List OpenEntry)
deriving DecidableEq

/-- One iteration of the event loop of `build_user_stats` (lines 183-225).
An opened event with a parsable timestamp enqueues onto its key's queue; an
acknowledged event with a parsable timestamp pops the oldest entry of a
non-empty queue (recording a delay only when ack time ≥ open time) — the
`defaultdict` access on line 220 materialises the key even when the queue is
empty, which `setA … q.tail` reproduces since `[].tail = []`. -/
def processEvent (st : BuildState) (e : Event) : BuildState :=
  let user := normalize_user e.user
  let target := e.target.getD ""
  let key : PairKey := (e.announcementId, user)
  let q := (lookupA st.open_events key).getD []
  let stats0 := (lookupA st.user_stats user).getD freshStats
  let stats1 := statsAfter e.kind e.timestamp target q stats0
  let open_events1 :=
    match e.timestamp with
    | some t =>
        if e.kind = some "opened" then
          setA st.open_events key
            (q ++ [{ timestamp := t, target := target,
                     announcementId := e.announcementId }])
        else if e.kind = some "acknowledged" then
          setA st.open_events key q.tail
        else st.open_events
    | none => st.open_events
  { user_stats := setA st.user_stats user stats1, open_events := open_events1 }

/-- The final pass of `build_user_stats` (lines 227-237): every entry left on
a queue becomes one outstanding session for that key's user, in enqueue
order, grouped by key in key-creation order. -/
def outstandingOf (open_events : List (PairKey × List OpenEntry)) :
    List (String × List Outstanding) :=
  open_events.foldl
    (fun acc kq =>
      kq.2.foldl
        (fun acc2 en =>
          setA acc2 kq.1.2
            ((lookupA acc2 kq.1.2).getD [] ++
              [{ announcementId := kq.1.1, opened_at := en.timestamp,
                 target := en.target }]))
        acc)
    []

/-- Embedding of `build_user_stats` (lines 179-239): scan the events in order, then report
per-user statistics and outstanding sessions. -/
def build_user_stats (events : List Event) :
    List (String × UserStats) × List (String × List Outstanding) :=
  let st := events.foldl processEvent { user_stats := [], open_events := [] }
  (st.user_stats, outstandingOf st.open_events)

/-- Python's `round(x, d)` modelled on exact rationals: round half away from
the smaller value at the `d`-th decimal. -/
def roundTo (d : ℕ) (x : ℚ) : ℚ :=
  ((round (x * 10 ^ d) : ℤ) : ℚ) / 10 ^ d

/-- The `statistics.mean` of a list of rationals. -/
def mean (l : List ℚ) : ℚ := l.sum / (l.length : ℚ)

/-- Embedding of `calculate_engagement_score` (lines 242-250): a weighted blend of
acknowledgement rate, delay score and activity, rounded to 4 decimals. -/
def calculate_engagement_score (stats : UserStats) : ℚ :=
  let opens := stats.open_count
  let acks := stats.ack_count
  let ack_rate : ℚ := if opens ≠ 0 then (acks : ℚ) / (opens : ℚ) else 0
  let delays := stats.ack_delays
  let avg_delay_hours : ℚ := if delays ≠ [] then mean delays / 3600 else 12
  let delay_score : ℚ := max 0 (min 1 (1 - avg_delay_hours / 24))
  let activity : ℚ := ((min (opens + acks) 20 : ℕ) : ℚ) / 20
  roundTo 4 (6/10 * ack_rate + 25/100 * delay_score + 15/100 * activity)

/-- A user profile as built by the first loop of `profile_users`
(lines 265-273). -/
structure UserProfile where
  opens : Nat
  acks : Nat
  ack_rate : ℚ
  avg_delay_minutes : Option ℚ
  score : ℚ
  classification : String
  outstanding : Nat
deriving DecidableEq

/-- The profile record of one user (lines 258-273); `outCount` is
`len(outstanding.get(user, []))`. -/
def mkProfile (stats : UserStats) (outCount : Nat) : UserProfile :=
  let opens := stats.open_count
  let acks := stats.ack_count
  let ack_rate : ℚ := if opens ≠ 0 then (acks : ℚ) / (opens : ℚ) else 0
  let delays := stats.ack_delays
  let avg_delay_minutes : Option ℚ :=
    if delays ≠ [] then some (mean delays / 60) else none
  { opens := opens, acks := acks,
    ack_rate := roundTo 1 (ack_rate * 100),
    avg_delay_minutes := avg_delay_minutes.map (fun m => roundTo 1 m),
    score := calculate_engagement_score stats,
    classification := "",
    outstanding := outCount }

/-- The clustering feature vector of one user (lines 275-281), which uses the
unrounded average delay. -/
def featureOf (stats : UserStats) : List ℚ :=
  let opens := stats.open_count
  let acks := stats.ack_count
  let ack_rate : ℚ := if opens ≠ 0 then (acks : ℚ) / (opens : ℚ) else 0
  let delays := stats.ack_delays
  let avg_delay_minutes : Option ℚ :=
    if delays ≠ [] then some (mean delays / 60) else none
  [(opens : ℚ), (acks : ℚ), ack_rate,
    (avg_delay_minutes.map (fun m => m / 60)).getD (1/2)]

/-- The feature matrix handed to KMeans, one row per user in scan order. -/
def featuresOf (user_stats : List (String × UserStats)) : List (List ℚ) :=
  user_stats.map (fun su => featureOf su.2)

/-- The heuristic classification rule (lines 314-323) applied to a profile's
score and rounded acknowledgement-rate percentage.  The `is not None` guard
of line 317 always takes its first branch, since `profile["ack_rate"]` is
always a number. -/
def heuristicLabel (score ack_rate_pct : ℚ) : String :=
  let ack_rate := ack_rate_pct / 100
  if 7/10 ≤ score ∧ 65/100 ≤ ack_rate then "Highly Engaged"
  else if 45/100 ≤ score then "Steady"
  else "Needs Attention"

/-- The heuristic fallback loop of `profile_users` (lines 314-323): every
profile's classification is (re)assigned from the rule. -/
def applyHeuristic (profiles : List (String × UserProfile)) :
    List (String × UserProfile) :=
  profiles.map (fun p =>
    (p.1, { p.2 with classification := heuristicLabel p.2.score p.2.ack_rate }))

/-- A stable insertion into a descending-ordered list: among equal keys the
inserted element, which originally came first, stays first. -/
def insertDesc {α : Type} (key : α → ℚ) (a : α) : List α → List α
  | [] => [a]
  | b :: rest =>
      if key b ≤ key a then a :: b :: rest else b :: insertDesc key a rest

/-- Python's `sorted(..., key=key, reverse=True)`: a stable descending sort
by `key`. -/
def sortDesc {α : Type} (key : α → ℚ) : List α → List α
  | [] => []
  | a :: rest => insertDesc key a (sortDesc key rest)

/-- The label post-processing of the clustering path (lines 290-309): average
the engagement score per cluster, rank clusters by descending average and
name them; each user then receives the name of their cluster. -/
def assignClusters (profiles : List (String × UserProfile))
    (labels : List ℤ) : List (String × UserProfile) :=
  let pairs := profiles.zip labels
  let cluster_scores : List (ℤ × ℚ) :=
    pairs.foldl
      (fun acc p => setA acc p.2 ((lookupA acc p.2).getD 0 + p.1.2.score)) []
  let cluster_counts : List (ℤ × ℕ) :=
    pairs.foldl (fun acc p => setA acc p.2 ((lookupA acc p.2).getD 0 + 1)) []
  let averaged_scores : List (ℤ × ℚ) :=
    cluster_scores.filterMap (fun sc =>
      match lookupA cluster_counts sc.1 with
      | some c => if c ≠ 0 then some (sc.1, sc.2 / (c : ℚ)) else none
      | none => none)
  let ordered_labels : List ℤ :=
    (sortDesc (fun lc => lc.2) averaged_scores).map (fun lc => lc.1)
  let segment_names : List String :=
    ["Highly Engaged", "Steady", "Needs Attention"]
  let mapping : List (ℤ × String) :=
    ordered_labels.enum.map
      (fun il => (il.2, segment_names.getD il.1 "Needs Attention"))
  pairs.map (fun p =>
    (p.1.1, { p.1.2 with classification := (lookupA mapping p.2).getD "Steady" }))

/-- Embedding of `profile_users` (lines 253-325), parameterised by KMeans availability and
by an abstract `fit_predict` that may raise (`Except.error`).  The clustering
path runs only when KMeans is importable and at least 3 feature rows exist;
any failure — including a label list shorter than the user list, which would
raise `IndexError` inside the labelling loop — is caught by the
`try/except` and the whole batch falls back to the heuristic rule.  Partial
classification assignments made before a failure are overwritten, because
the heuristic loop reassigns every profile. -/
def profile_users_with (kmeansAvailable : Bool)
    (fit_predict : List (List ℚ) → Except Unit (List ℤ))
    (user_stats : List (String × UserStats))
    (outstanding : List (String × List Outstanding)) :
    List (String × UserProfile) × String :=
  let profiles : List (String × UserProfile) :=
    user_stats.map (fun su =>
      (su.1, mkProfile su.2 ((lookupA outstanding su.1).getD []).length))
  let features := featuresOf user_stats
  let clustered : Option (List (String × UserProfile)) :=
    if kmeansAvailable ∧ 3 ≤ features.length then
      match fit_predict features with
      | Except.error _ => none
      | Except.ok labels =>
          if labels.length < profiles.length then none
          else some (assignClusters profiles labels)
    else none
  match clustered with
  | some assigned => (assigned, "sklearn-kmeans")
  | none => (applyHeuristic profiles, "heuristic")

/-- Python's `x or default` applied to an optional number: both `None` and
`0` are falsy (line 385 reads `profile["avg_delay_minutes"] or 90`). -/
def orDefault (x : Option ℚ) (d : ℚ) : ℚ :=
  match x with
  | none => d
  | some v => if v = 0 then d else v

/-- The risk-score formula of lines 385-388, before its 3-decimal rounding:
`(1 − ackRate) + min(outstanding, 3)·0.2 + min(avgDelayHours/12, 1)` with
`avgDelayHours = (avgDelayMinutes or 90)/60`. -/
def risk_score_of (ack_rate : ℚ) (avg_delay_minutes : Option ℚ)
    (outstanding_tasks : Nat) : ℚ :=
  let avg_delay_hours := orDefault avg_delay_minutes 90 / 60
  (1 - ack_rate) + ((min outstanding_tasks 3 : ℕ) : ℚ) * (2/10) +
    min (avg_delay_hours / 12) 1

/-- One leaders-list entry (lines 371-380). -/
structure LeaderEntry where
  user : String
  score : ℚ
  classification : String
  ack_rate : ℚ
  avg_delay_minutes : Option ℚ
deriving DecidableEq

/-- One risk-candidate entry (lines 389-398). -/
structure RiskEntry where
  user : String
  ack_rate : ℚ
  outstanding : Nat
  avg_delay_minutes : Option ℚ
  classification : String
  risk_score : ℚ
deriving DecidableEq

/-- The fleet-wide aggregates of the report (lines 330-335). -/
structure Overall where
  total_events : Nat
  total_users : Nat
  conversion_rate : ℚ
  avg_ack_minutes : Option ℚ
deriving DecidableEq

/-- The analytics report returned by `generate_user_analytics`. -/
structure Analytics where
  overall : Overall
  leaders : List LeaderEntry
  risks : List RiskEntry
  insights : List String
  engine : String
deriving DecidableEq

/-- The risk-candidate loop of `generate_user_analytics` (lines 382-398): a
user is a candidate when the rounded acknowledgement rate is below 0.6 or
outstanding sessions exist.  As on line 317, the `is not None` guard on
line 384 is vacuous. -/
def riskCandidatesOf (profiles : List (String × UserProfile)) :
    List RiskEntry :=
  profiles.filterMap (fun p =>
    let ack_rate := p.2.ack_rate / 100
    let outstanding_tasks := p.2.outstanding
    if ack_rate < 6/10 ∨ outstanding_tasks ≠ 0 then
      some { user := p.1,
             ack_rate := roundTo 1 (ack_rate * 100),
             outstanding := outstanding_tasks,
             avg_delay_minutes := p.2.avg_delay_minutes,
             classification := p.2.classification,
             risk_score := roundTo 3
               (risk_score_of ack_rate p.2.avg_delay_minutes outstanding_tasks) }
    else none)

/-- Embedding of `generate_user_analytics` (lines 328-414), the report-builder entry
point, with the KMeans parameters threaded through to `profile_users`. -/
def generate_user_analytics (kmeansAvailable : Bool)
    (fit_predict : List (List ℚ) → Except Unit (List ℤ))
    (events : List Event) : Analytics :=
  if events = [] then
    { overall := { total_events := 0, total_users := 0, conversion_rate := 0,
                   avg_ack_minutes := none },
      leaders := [], risks := [],
      insights := ["No engagement events recorded yet. Ask users to open and acknowledge announcements to gather data."],
      engine := "heuristic" }
  else
    let us := build_user_stats events
    let user_stats := us.1
    let outstanding := us.2
    let pe := profile_users_with kmeansAvailable fit_predict user_stats
      outstanding
    let profiles := pe.1
    let engine := pe.2
    let total_opens := (user_stats.map (fun su => su.2.open_count)).sum
    let total_acks := (user_stats.map (fun su => su.2.ack_count)).sum
    let conversion_rate : ℚ :=
      if total_opens ≠ 0 then (total_acks : ℚ) / (total_opens : ℚ) * 100
      else 0
    let all_delays : List ℚ :=
      (user_stats.map (fun su => su.2.ack_delays)).flatten
    let avg_ack_minutes : Option ℚ :=
      if all_delays ≠ [] then some (mean all_delays / 60) else none
    let overall : Overall :=
      { total_events := events.length, total_users := user_stats.length,
        conversion_rate := roundTo 1 conversion_rate,
        avg_ack_minutes := avg_ack_minutes.map (fun m => roundTo 1 m) }
    let outstanding_count := (outstanding.map (fun o => o.2.length)).sum
    let outstanding_users := outstanding.length
    let insights1 : List String :=
      if outstanding_count ≠ 0 then
        [s!"{outstanding_count} pending acknowledgement(s) across {outstanding_users} user(s). Prioritise follow-up."]
      else []
    let leaders : List LeaderEntry :=
      ((sortDesc (fun p => p.2.score) profiles).take 3).map (fun p =>
        { user := p.1, score := p.2.score,
          classification := p.2.classification,
          ack_rate := p.2.ack_rate,
          avg_delay_minutes := p.2.avg_delay_minutes })
    let risks : List RiskEntry :=
      (sortDesc (fun r => r.risk_score) (riskCandidatesOf profiles)).take 3
    let insights2 : List String :=
      if overall.conversion_rate < 60 then
        ["Overall conversion rate is under 60%. Consider reinforcing acknowledgements in upcoming communications."]
      else []
    let insights3 : List String :=
      match overall.avg_ack_minutes with
      | some m =>
          -- line 406 reads `if ... avg_ack_minutes and ... > 180`: both
          -- `None` and `0.0` are falsy.
          if m ≠ 0 ∧ 180 < m then
            ["Average acknowledgement time exceeds 3 hours. Send reminders or shorten tasks to encourage quicker responses."]
          else []
      | none => []
    let insights0 := insights1 ++ insights2 ++ insights3
    let insights :=
      if insights0 = [] then
        ["Engagement metrics look healthy. Continue monitoring for trends."]
      else insights0
    { overall := overall, leaders := leaders, risks := risks,
      insights := insights, engine := engine }

theorem lookupA_setA_self {α β : Type} [DecidableEq α]
    (l : List (α × β)) (k : α) (v : β) :
    lookupA (setA l k v) k = some v := by
  induction l with
  | nil => simp [setA, lookupA]
  | cons hd tl ih =>
    obtain ⟨k0, v0⟩ := hd
    by_cases h : k0 = k
    · simp [setA, h, lookupA]
    · simp [setA, h, lookupA, ih]

theorem lookupA_setA_ne {α β : Type} [DecidableEq α]
    (l : List (α × β)) (k k' : α) (v : β) (h : k' ≠ k) :
    lookupA (setA l k v) k' = lookupA l k' := by
  induction l with
  | nil => simp [setA, lookupA, Ne.symm h]
  | cons hd tl ih =>
    obtain ⟨k0, v0⟩ := hd
    by_cases hk : k0 = k
    · subst hk
      simp [setA, lookupA, Ne.symm h]
    · simp [setA, hk, lookupA, ih]

/-- The total opened-event count accumulated over all users of a statistics
table. -/
def sumOpenCounts (l : List (String × UserStats)) : ℕ :=
  (l.map (fun su => su.2.open_count)).sum

/-- The total acknowledged-event count accumulated over all users of a
statistics table. -/
def sumAckCounts (l : List (String × UserStats)) : ℕ :=
  (l.map (fun su => su.2.ack_count)).sum

theorem sumOpen_setA (l : List (String × UserStats)) (u : String)
    (s : UserStats) :
    sumOpenCounts (setA l u s) + ((lookupA l u).getD freshStats).open_count
      = sumOpenCounts l + s.open_count := by
  induction l with
  | nil => simp [setA, lookupA, sumOpenCounts, freshStats]
  | cons hd tl ih =>
    obtain ⟨k, v⟩ := hd
    by_cases h : k = u
    · simp [setA, h, lookupA, sumOpenCounts]
      omega
    · simp [setA, h, lookupA, sumOpenCounts] at ih ⊢
      omega

theorem sumAck_setA (l : List (String × UserStats)) (u : String)
    (s : UserStats) :
    sumAckCounts (setA l u s) + ((lookupA l u).getD freshStats).ack_count
      = sumAckCounts l + s.ack_count := by
  induction l with
  | nil => simp [setA, lookupA, sumAckCounts, freshStats]
  | cons hd tl ih =>
    obtain ⟨k, v⟩ := hd
    by_cases h : k = u
    · simp [setA, h, lookupA, sumAckCounts]
      omega
    · simp [setA, h, lookupA, sumAckCounts] at ih ⊢
      omega

theorem statsAfter_open_count (kind : Option String) (timestamp : Option ℚ)
    (target : String) (q : List OpenEntry) (s : UserStats) :
    (statsAfter kind timestamp target q s).open_count
      = s.open_count + (if kind = some "opened" then 1 else 0) := by
  obtain ⟨oc, ac, ad, lts, tg⟩ := s
  simp only [statsAfter]
  repeat' split
  all_goals first | simp_all | simp

theorem statsAfter_ack_count (kind : Option String) (timestamp : Option ℚ)
    (target : String) (q : List OpenEntry) (s : UserStats) :
    (statsAfter kind timestamp target q s).ack_count
      = s.ack_count + (if kind = some "acknowledged" then 1 else 0) := by
  obtain ⟨oc, ac, ad, lts, tg⟩ := s
  simp only [statsAfter]
  repeat' split
  all_goals first | simp_all | simp

theorem statsAfter_ack_delays (kind : Option String) (timestamp : Option ℚ)
    (target : String) (q : List OpenEntry) (s : UserStats) :
    (statsAfter kind timestamp target q s).ack_delays
      = if kind = some "acknowledged" then
          match timestamp, q with
          | some t, en :: _ =>
              if en.timestamp ≤ t then s.ack_delays ++ [t - en.timestamp]
              else s.ack_delays
          | _, _ => s.ack_delays
        else s.ack_delays := by
  obtain ⟨oc, ac, ad, lts, tg⟩ := s
  simp only [statsAfter]
  repeat' split
  all_goals first | simp_all | simp

theorem statsAfter_last_event_ts (kind : Option String)
    (timestamp : Option ℚ) (target : String) (q : List OpenEntry)
    (s : UserStats) :
    (statsAfter kind timestamp target q s).last_event_ts
      = match timestamp, s.last_event_ts with
        | some t, none => some t
        | some t, some prev => if prev < t then some t else some prev
        | none, l => l := by
  obtain ⟨oc, ac, ad, lts, tg⟩ := s
  simp only [statsAfter]
  repeat' split
  all_goals first | simp_all | simp

theorem statsAfter_targets (kind : Option String) (timestamp : Option ℚ)
    (target : String) (q : List OpenEntry) (s : UserStats) :
    (statsAfter kind timestamp target q s).targets
      = if target ≠ "" then insert target s.targets else s.targets := by
  obtain ⟨oc, ac, ad, lts, tg⟩ := s
  simp only [statsAfter]
  repeat' split
  all_goals first | simp_all | simp

theorem processEvent_user_stats (st : BuildState) (e : Event) :
    (processEvent st e).user_stats
      = setA st.user_stats (normalize_user e.user)
          (statsAfter e.kind e.timestamp (e.target.getD "")
            ((lookupA st.open_events
                (e.announcementId, normalize_user e.user)).getD [])
            ((lookupA st.user_stats (normalize_user e.user)).getD
              freshStats)) := rfl

theorem sumOpen_processEvent (st : BuildState) (e : Event) :
    sumOpenCounts (processEvent st e).user_stats
      = sumOpenCounts st.user_stats
        + (if e.kind = some "opened" then 1 else 0) := by
  rw [processEvent_user_stats]
  have h := sumOpen_setA st.user_stats (normalize_user e.user)
    (statsAfter e.kind e.timestamp (e.target.getD "")
      ((lookupA st.open_events
          (e.announcementId, normalize_user e.user)).getD [])
      ((lookupA st.user_stats (normalize_user e.user)).getD freshStats))
  rw [statsAfter_open_count] at h
  by_cases hk : e.kind = some "opened" <;> simp [hk] at h ⊢ <;> omega

theorem sumAck_processEvent (st : BuildState) (e : Event) :
    sumAckCounts (processEvent st e).user_stats
      = sumAckCounts st.user_stats
        + (if e.kind = some "acknowledged" then 1 else 0) := by
  rw [processEvent_user_stats]
  have h := sumAck_setA st.user_stats (normalize_user e.user)
    (statsAfter e.kind e.timestamp (e.target.getD "")
      ((lookupA st.open_events
          (e.announcementId, normalize_user e.user)).getD [])
      ((lookupA st.user_stats (normalize_user e.user)).getD freshStats))
  rw [statsAfter_ack_count] at h
  by_cases hk : e.kind = some "acknowledged" <;> simp [hk] at h ⊢ <;> omega

theorem sumOpen_foldl (events : List Event) (st : BuildState) :
    sumOpenCounts ((events.foldl processEvent st).user_stats)
      = sumOpenCounts st.user_stats
        + (events.filter (fun e => e.kind = some "opened")).length := by
  induction events generalizing st with
  | nil => simp
  | cons e rest ih =>
    simp only [List.foldl_cons, List.filter_cons]
    rw [ih, sumOpen_processEvent]
    by_cases hk : e.kind = some "opened" <;> simp [hk] <;> omega

theorem sumAck_foldl (events : List Event) (st : BuildState) :
    sumAckCounts ((events.foldl processEvent st).user_stats)
      = sumAckCounts st.user_stats
        + (events.filter (fun e => e.kind = some "acknowledged")).length := by
  induction events generalizing st with
  | nil => simp
  | cons e rest ih =>
    simp only [List.foldl_cons, List.filter_cons]
    rw [ih, sumAck_processEvent]
    by_cases hk : e.kind = some "acknowledged" <;> simp [hk] <;> omega

/-- C7: for every event sequence, the sum of `openCount` over all users
equals the number of events with kind `"opened"`, and the sum of `ackCount`
over all users equals the number of events with kind `"acknowledged"`,
regardless of timestamps, pairing outcomes or missing announcement ids. -/
theorem total_counts_match_event_counts (events : List Event) :
    sumOpenCounts (build_user_stats events).1
      = (events.filter (fun e => e.kind = some "opened")).length ∧
    sumAckCounts (build_user_stats events).1
      = (events.filter (fun e => e.kind = some "acknowledged")).length := by
  constructor
  · have h := sumOpen_foldl events { user_stats := [], open_events := [] }
    simpa [build_user_stats, sumOpenCounts] using h
  · have h := sumAck_foldl events { user_stats := [], open_events := [] }
    simpa [build_user_stats, sumAckCounts] using h

attribute [ext] UserStats

theorem processEvent_open_events_ack (st : BuildState) (e : Event) (t : ℚ)
    (hk : e.kind = some "acknowledged") (ht : e.timestamp = some t) :
    (processEvent st e).open_events
      = setA st.open_events (e.announcementId, normalize_user e.user)
          ((lookupA st.open_events
              (e.announcementId, normalize_user e.user)).getD []).tail := by
  simp [processEvent, ht, hk]

theorem lookupA_processEvent_self (st : BuildState) (e : Event) :
    lookupA (processEvent st e).user_stats (normalize_user e.user)
      = some (statsAfter e.kind e.timestamp (e.target.getD "")
          ((lookupA st.open_events
              (e.announcementId, normalize_user e.user)).getD [])
          ((lookupA st.user_stats (normalize_user e.user)).getD
            freshStats)) := by
  rw [processEvent_user_stats]
  exact lookupA_setA_self _ _ _

/-- C1: on an acknowledged event with a parsable timestamp whose pairing key
`(announcementId, normalized user)` has a non-empty FIFO queue, the oldest
queued opened entry is popped and never requeued (the key's queue becomes
the tail, all other queues are untouched), `ackCount` increments, and the
difference in seconds is appended to the user's `ackDelays` exactly when the
popped entry's timestamp is ≤ the acknowledged timestamp — otherwise nothing
is appended, so the discarded entry can never surface as an
OutstandingSession. -/
theorem ack_consumes_oldest_open (st : BuildState) (e : Event) (t : ℚ)
    (en : OpenEntry) (rest : List OpenEntry)
    (hk : e.kind = some "acknowledged")
    (ht : e.timestamp = some t)
    (hq : (lookupA st.open_events
            (e.announcementId, normalize_user e.user)).getD [] = en :: rest) :
    lookupA (processEvent st e).open_events
        (e.announcementId, normalize_user e.user) = some rest ∧
    (∀ k, k ≠ (e.announcementId, normalize_user e.user) →
      lookupA (processEvent st e).open_events k
        = lookupA st.open_events k) ∧
    ((lookupA (processEvent st e).user_stats
        (normalize_user e.user)).getD freshStats).ack_count
      = ((lookupA st.user_stats (normalize_user e.user)).getD
          freshStats).ack_count + 1 ∧
    ((lookupA (processEvent st e).user_stats
        (normalize_user e.user)).getD freshStats).ack_delays
      = (if en.timestamp ≤ t then
          ((lookupA st.user_stats (normalize_user e.user)).getD
            freshStats).ack_delays ++ [t - en.timestamp]
        else
          ((lookupA st.user_stats (normalize_user e.user)).getD
            freshStats).ack_delays) := by
  have hopen := processEvent_open_events_ack st e t hk ht
  refine ⟨?_, ?_, ?_, ?_⟩
  · rw [hopen, hq, List.tail_cons]
    exact lookupA_setA_self _ _ _
  · intro k hkk
    rw [hopen]
    exact lookupA_setA_ne _ _ _ _ hkk
  · rw [lookupA_processEvent_self]
    simp [statsAfter_ack_count, hk]
  · rw [lookupA_processEvent_self]
    simp only [Option.getD_some, statsAfter_ack_delays, hk, ht, hq,
      if_pos rfl, if_true]

/-- A concrete state with one queued opened entry, used to instantiate the
pairing theorems. -/
def stateW : BuildState :=
  { user_stats :=
      [("anonymous",
        { open_count := 1, ack_count := 0, ack_delays := [],
          last_event_ts := some 10, targets := ∅ })],
    open_events :=
      [((some 1, "anonymous"),
        [{ timestamp := 10, target := "", announcementId := some 1 }])] }

/-- A concrete acknowledged event arriving after the queued open of
`stateW`. -/
def ackLateW : Event :=
  { kind := some "acknowledged", announcementId := some 1, user := none,
    target := none, timestamp := some 25 }

theorem ack_consumes_oldest_open_witness :
    lookupA (processEvent stateW ackLateW).open_events
      (ackLateW.announcementId, normalize_user ackLateW.user) = some [] :=
  (ack_consumes_oldest_open stateW ackLateW 25
    { timestamp := 10, target := "", announcementId := some 1 } []
    rfl rfl (by decide)).1

/-- A concrete acknowledged event arriving strictly before the queued open
of `stateW`. -/
def ackEarlyW : Event :=
  { kind := some "acknowledged", announcementId := some 1, user := none,
    target := none, timestamp := some 5 }

/-- C2 counterexample: in the trace `[opened at 10, acknowledged at 5]` for
the same key, the code pops and discards the queued open even though the
acknowledgement is strictly earlier — end-of-scan outstanding sessions are
empty and `ackDelays` is empty, contradicting the claim that the opened
event stays queued and is reported as an OutstandingSession. -/
theorem early_ack_leaves_open_queued_cex :
    (build_user_stats
      [{ kind := some "opened", announcementId := some 1, user := none,
         target := none, timestamp := some 10 },
       { kind := some "acknowledged", announcementId := some 1, user := none,
         target := none, timestamp := some 5 }]).2 = [] ∧
    lookupA (build_user_stats
      [{ kind := some "opened", announcementId := some 1, user := none,
         target := none, timestamp := some 10 },
       { kind := some "acknowledged", announcementId := some 1, user := none,
         target := none, timestamp := some 5 }]).1 "anonymous"
      = some { open_count := 1, ack_count := 1, ack_delays := [],
               last_event_ts := some 10, targets := ∅ } := by
  have h1 : ¬ ((10 : ℚ) < 5) := by norm_num
  have h2 : ¬ ((10 : ℚ) ≤ 5) := by norm_num
  constructor <;>
    simp [build_user_stats, processEvent, statsAfter, normalize_user,
      pyStrip, lookupA, setA, outstandingOf, freshStats, h1, h2]

/-- C2 amended: an acknowledged event with a parsable timestamp strictly
earlier than the oldest queued opened entry for its key increments the
user's `ackCount` and appends nothing to `ackDelays`, but it still dequeues
that oldest entry, discarding it, so the entry is not reported as an
OutstandingSession at end of scan. -/
theorem early_ack_discards_oldest_open (st : BuildState) (e : Event) (t : ℚ)
    (en : OpenEntry) (rest : List OpenEntry)
    (hk : e.kind = some "acknowledged")
    (ht : e.timestamp = some t)
    (hq : (lookupA st.open_events
            (e.announcementId, normalize_user e.user)).getD [] = en :: rest)
    (hlt : t < en.timestamp) :
    lookupA (processEvent st e).open_events
        (e.announcementId, normalize_user e.user) = some rest ∧
    ((lookupA (processEvent st e).user_stats
        (normalize_user e.user)).getD freshStats).ack_count
      = ((lookupA st.user_stats (normalize_user e.user)).getD
          freshStats).ack_count + 1 ∧
    ((lookupA (processEvent st e).user_stats
        (normalize_user e.user)).getD freshStats).ack_delays
      = ((lookupA st.user_stats (normalize_user e.user)).getD
          freshStats).ack_delays := by
  obtain ⟨hqueue, _, hack, hdelay⟩ :=
    ack_consumes_oldest_open st e t en rest hk ht hq
  refine ⟨hqueue, hack, ?_⟩
  rw [hdelay, if_neg (not_le.mpr hlt)]

theorem early_ack_discards_oldest_open_witness :
    ((lookupA (processEvent stateW ackEarlyW).user_stats
        (normalize_user ackEarlyW.user)).getD freshStats).ack_delays
      = ((lookupA stateW.user_stats
          (normalize_user ackEarlyW.user)).getD freshStats).ack_delays :=
  (early_ack_discards_oldest_open stateW ackEarlyW 5
    { timestamp := 10, target := "", announcementId := some 1 } []
    rfl rfl (by decide) (by norm_num)).2.2

/-- C9: an event whose kind is neither `"opened"` nor `"acknowledged"`
leaves every pairing queue and every user's `openCount`, `ackCount` and
`ackDelays` unchanged, while still bumping the event's user's
`lastEventTimestamp` (when the timestamp is parsable and strictly greater
than the current value, or when none was recorded) and adding a non-empty
target to the user's target set. -/
theorem unknown_kind_updates_only_common_fields (st : BuildState) (e : Event)
    (h1 : e.kind ≠ some "opened") (h2 : e.kind ≠ some "acknowledged") :
    (processEvent st e).open_events = st.open_events ∧
    (∀ v, v ≠ normalize_user e.user →
      lookupA (processEvent st e).user_stats v
        = lookupA st.user_stats v) ∧
    lookupA (processEvent st e).user_stats (normalize_user e.user)
      = some
        { open_count :=
            ((lookupA st.user_stats (normalize_user e.user)).getD
              freshStats).open_count,
          ack_count :=
            ((lookupA st.user_stats (normalize_user e.user)).getD
              freshStats).ack_count,
          ack_delays :=
            ((lookupA st.user_stats (normalize_user e.user)).getD
              freshStats).ack_delays,
          last_event_ts :=
            match e.timestamp,
              ((lookupA st.user_stats (normalize_user e.user)).getD
                freshStats).last_event_ts with
            | some t, none => some t
            | some t, some prev => if prev < t then some t else some prev
            | none, l => l,
          targets :=
            if e.target.getD "" ≠ "" then
              insert (e.target.getD "")
                ((lookupA st.user_stats (normalize_user e.user)).getD
                  freshStats).targets
            else
              ((lookupA st.user_stats (normalize_user e.user)).getD
                freshStats).targets } := by
  refine ⟨?_, ?_, ?_⟩
  · rcases ht : e.timestamp with _ | t <;> simp [processEvent, h1, h2, ht]
  · intro v hv
    rw [processEvent_user_stats]
    exact lookupA_setA_ne _ _ _ _ hv
  · rw [lookupA_processEvent_self]
    congr 1
    ext : 1 <;>
      simp [statsAfter_open_count, statsAfter_ack_count,
        statsAfter_ack_delays, statsAfter_last_event_ts, statsAfter_targets,
        h1, h2]

/-- A concrete event of unknown kind carrying a timestamp and a target. -/
def viewedW : Event :=
  { kind := some "viewed", announcementId := some 1, user := none,
    target := some "https://example.com/task", timestamp := some 99 }

theorem unknown_kind_updates_only_common_fields_witness :
    (processEvent stateW viewedW).open_events = stateW.open_events :=
  (unknown_kind_updates_only_common_fields stateW viewedW
    (by decide) (by decide)).1

theorem roundTo_nonneg (d : ℕ) (x : ℚ) (hx : 0 ≤ x) : 0 ≤ roundTo d x := by
  unfold roundTo
  apply div_nonneg _ (by positivity)
  have h : (0:ℤ) ≤ round (x * 10 ^ d) := by
    rw [round_eq]
    refine Int.floor_nonneg.mpr ?_
    have h0 : (0:ℚ) ≤ x * 10 ^ d := mul_nonneg hx (by positivity)
    linarith
  exact_mod_cast h

theorem roundTo_le_one (d : ℕ) (x : ℚ) (hx : x ≤ 1) : roundTo d x ≤ 1 := by
  unfold roundTo
  rw [div_le_one (by positivity)]
  have h : round (x * 10 ^ d) ≤ round ((10:ℚ) ^ d) := by
    rw [round_eq, round_eq]
    apply Int.floor_mono
    have h10 : (0:ℚ) < 10 ^ d := by positivity
    nlinarith
  have h2 : round ((10:ℚ) ^ d) = (10 ^ d : ℤ) := by
    rw [show ((10:ℚ) ^ d) = ((10 ^ d : ℤ) : ℚ) by push_cast; ring,
      round_intCast]
  rw [h2] at h
  exact_mod_cast h

theorem roundTo_roundTo (d : ℕ) (x : ℚ) :
    roundTo d (roundTo d x) = roundTo d x := by
  unfold roundTo
  rw [div_mul_cancel₀ _ (show ((10:ℚ) ^ d) ≠ 0 by positivity), round_intCast]

theorem roundTo_eq_of_bounds (d : ℕ) (x : ℚ) (n : ℤ)
    (h1 : (n : ℚ) ≤ x * 10 ^ d + 1/2) (h2 : x * 10 ^ d + 1/2 < n + 1) :
    roundTo d x = (n : ℚ) / 10 ^ d := by
  unfold roundTo
  rw [round_eq, Int.floor_eq_iff.mpr ⟨h1, h2⟩]

theorem score_combo_unit (ar ds act : ℚ) (h1 : 0 ≤ ar) (h2 : ar ≤ 1)
    (h3 : 0 ≤ ds) (h4 : ds ≤ 1) (h5 : 0 ≤ act) (h6 : act ≤ 1) :
    0 ≤ 6/10 * ar + 25/100 * ds + 15/100 * act ∧
      6/10 * ar + 25/100 * ds + 15/100 * act ≤ 1 := by
  constructor <;> nlinarith

/-- C3 counterexample: a UserStats record with non-negative counts and only
non-negative (here: no) delays whose engagement score exceeds 1: with
openCount = 1 and ackCount = 5 the acknowledgement rate is 5 and the score
is 3.17. -/
theorem score_exceeds_one_cex :
    calculate_engagement_score
      { open_count := 1, ack_count := 5, ack_delays := [],
        last_event_ts := none, targets := ∅ } = 317/100 ∧
    ¬ (calculate_engagement_score
      { open_count := 1, ack_count := 5, ack_delays := [],
        last_event_ts := none, targets := ∅ } ≤ 1) := by
  have hb : calculate_engagement_score
      { open_count := 1, ack_count := 5, ack_delays := [],
        last_event_ts := none, targets := ∅ }
      = roundTo 4 (317/100) := by
    norm_num [calculate_engagement_score, mean, min_def, max_def]
  have hr : roundTo 4 (317/100) = ((31700 : ℤ) : ℚ) / 10 ^ 4 :=
    roundTo_eq_of_bounds 4 _ 31700 (by norm_num) (by norm_num)
  rw [hb, hr]
  norm_num

/-- C3 amended: the engagement score lies in [0, 1] and is a fixed point of
4-decimal rounding for every UserStats record with non-negative delays,
provided additionally that the acknowledgement rate cannot exceed 1
(openCount = 0, or ackCount ≤ openCount); without that extra hypothesis the
claim fails, see the counterexample. -/
theorem score_in_unit_interval (stats : UserStats)
    (hd : ∀ x ∈ stats.ack_delays, (0:ℚ) ≤ x)
    (hc : stats.open_count = 0 ∨ stats.ack_count ≤ stats.open_count) :
    0 ≤ calculate_engagement_score stats ∧
    calculate_engagement_score stats ≤ 1 ∧
    roundTo 4 (calculate_engagement_score stats)
      = calculate_engagement_score stats := by
  have hrepr : calculate_engagement_score stats
      = roundTo 4 (6/10 * (if stats.open_count ≠ 0 then
            (stats.ack_count : ℚ) / (stats.open_count : ℚ) else 0)
          + 25/100 * (max 0 (min 1 (1 - (if stats.ack_delays ≠ [] then
              mean stats.ack_delays / 3600 else 12) / 24)))
          + 15/100 * (((min (stats.open_count + stats.ack_count) 20 : ℕ) : ℚ)
              / 20)) := rfl
  have hA0 : (0:ℚ) ≤ (if stats.open_count ≠ 0 then
      (stats.ack_count : ℚ) / (stats.open_count : ℚ) else 0) := by
    split
    · positivity
    · exact le_refl 0
  have hA1 : (if stats.open_count ≠ 0 then
      (stats.ack_count : ℚ) / (stats.open_count : ℚ) else 0) ≤ 1 := by
    split
    · rename_i h
      rcases hc with h0 | hle
      · exact absurd h0 h
      · rw [div_le_one (by exact_mod_cast Nat.pos_of_ne_zero h)]
        exact_mod_cast hle
    · norm_num
  have hD0 : (0:ℚ) ≤ max 0 (min 1 (1 - (if stats.ack_delays ≠ [] then
      mean stats.ack_delays / 3600 else 12) / 24)) := le_max_left _ _
  have hD1 : max 0 (min 1 (1 - (if stats.ack_delays ≠ [] then
      mean stats.ack_delays / 3600 else 12) / 24)) ≤ 1 :=
    max_le (by norm_num) (min_le_left _ _)
  have hT0 : (0:ℚ) ≤
      ((min (stats.open_count + stats.ack_count) 20 : ℕ) : ℚ) / 20 := by
    positivity
  have hT1 : ((min (stats.open_count + stats.ack_count) 20 : ℕ) : ℚ) / 20
      ≤ 1 := by
    rw [div_le_one (by norm_num)]
    exact_mod_cast Nat.min_le_right (stats.open_count + stats.ack_count) 20
  rw [hrepr]
  obtain ⟨hb0, hb1⟩ := score_combo_unit _ _ _ hA0 hA1 hD0 hD1 hT0 hT1
  exact ⟨roundTo_nonneg _ _ hb0, roundTo_le_one _ _ hb1, roundTo_roundTo _ _⟩

theorem score_in_unit_interval_witness :
    0 ≤ calculate_engagement_score
      { open_count := 2, ack_count := 1, ack_delays := [30],
        last_event_ts := none, targets := ∅ } :=
  (score_in_unit_interval
    { open_count := 2, ack_count := 1, ack_delays := [30],
      last_event_ts := none, targets := ∅ }
    (by norm_num) (Or.inr (by norm_num))).1

/-- A concrete profile with acknowledgement rate 50%, two outstanding
sessions and no recorded delay. -/
def riskProfileW : UserProfile :=
  { opens := 2, acks := 1, ack_rate := 50, avg_delay_minutes := none,
    score := 4475/10000, classification := "Needs Attention",
    outstanding := 2 }

/-- C4 counterexample: for a risk candidate with ackRate 0.5, outstanding 2
and unknown avgDelayMinutes, the report builder computes risk score 1.025,
not 1.9: the delay term is min((90/60)/12, 1) = 0.125, not 1.0. -/
theorem risk_score_example_cex :
    (riskCandidatesOf [("u", riskProfileW)]).map (fun r => r.risk_score)
      = [41/40] ∧ (41/40 : ℚ) ≠ 19/10 := by
  have hv : risk_score_of ((1:ℚ)/2) none 2 = 41/40 := by
    norm_num [risk_score_of, orDefault, min_def]
  have h1 : roundTo 3 (risk_score_of ((1:ℚ)/2) none 2)
      = ((1025 : ℤ) : ℚ) / 10 ^ 3 := by
    rw [hv]
    exact roundTo_eq_of_bounds 3 _ 1025 (by norm_num) (by norm_num)
  constructor
  · simp only [riskCandidatesOf, riskProfileW, List.filterMap]
    norm_num [h1]
  · norm_num

/-- C4 amended: for a risk candidate with ackRate = 0.5, outstanding = 2 and
unknown avgDelayMinutes, the risk-score formula of the report builder yields
(1 − 0.5) + min(2, 3)·0.2 + min((90/60)/12, 1) = 0.5 + 0.4 + 0.125
= 1.025. -/
theorem risk_score_example_amended :
    risk_score_of (1/2) none 2 = 41/40 := by
  norm_num [risk_score_of, orDefault, min_def]

/-- C5: if the clustering backend fails on the computed feature matrix, the
reported engine is "heuristic" and every profile of the batch carries the
heuristic label of its own score and rounded acknowledgement rate: the
classifications never mix clustering and heuristic assignments, and no
error reaches the caller (the function is total). -/
theorem cluster_failure_falls_back_to_heuristic
    (kmeansAvailable : Bool)
    (fit_predict : List (List ℚ) → Except Unit (List ℤ))
    (user_stats : List (String × UserStats))
    (outstanding : List (String × List Outstanding))
    (hfail : fit_predict (featuresOf user_stats) = Except.error ()) :
    (profile_users_with kmeansAvailable fit_predict user_stats
        outstanding).2 = "heuristic" ∧
    ∀ p ∈ (profile_users_with kmeansAvailable fit_predict user_stats
        outstanding).1,
      p.2.classification = heuristicLabel p.2.score p.2.ack_rate := by
  have hres : profile_users_with kmeansAvailable fit_predict user_stats
      outstanding
      = (applyHeuristic (user_stats.map (fun su =>
          (su.1, mkProfile su.2 ((lookupA outstanding su.1).getD []).length))),
         "heuristic") := by
    simp [profile_users_with, hfail]
  rw [hres]
  refine ⟨rfl, ?_⟩
  intro p hp
  simp only [applyHeuristic, List.mem_map] at hp
  obtain ⟨q, hq, rfl⟩ := hp
  rfl

/-- The always-failing abstract clustering backend. -/
def fpErr : List (List ℚ) → Except Unit (List ℤ) :=
  fun _ => Except.error ()

theorem cluster_failure_falls_back_to_heuristic_witness :
    (profile_users_with true fpErr
      [("u", freshStats), ("v", freshStats), ("w", freshStats)] []).2
      = "heuristic" :=
  (cluster_failure_falls_back_to_heuristic true fpErr
    [("u", freshStats), ("v", freshStats), ("w", freshStats)] [] rfl).1

/-- C6: the heuristic classifier is deterministic and total: every entry of
its output carries exactly the label of the threshold rule — "Highly
Engaged" when score ≥ 0.7 and ackRate ≥ 0.65, else "Steady" when
score ≥ 0.45, else "Needs Attention" — which is one of the three segment
names, and running it twice on the same profiles yields identical labels. -/
theorem heuristic_total_deterministic (profiles : List (String × UserProfile))
    (p : String × UserProfile) (hp : p ∈ applyHeuristic profiles) :
    p.2.classification
      = (if 7/10 ≤ p.2.score ∧ 65/100 ≤ p.2.ack_rate / 100 then
          "Highly Engaged"
         else if 45/100 ≤ p.2.score then "Steady"
         else "Needs Attention") ∧
    (p.2.classification = "Highly Engaged" ∨
      p.2.classification = "Steady" ∨
      p.2.classification = "Needs Attention") ∧
    applyHeuristic profiles = applyHeuristic profiles := by
  simp only [applyHeuristic, List.mem_map] at hp
  obtain ⟨q, hq, rfl⟩ := hp
  refine ⟨rfl, ?_, rfl⟩
  unfold heuristicLabel
  by_cases h1 : 7/10 ≤ q.2.score ∧ 65/100 ≤ q.2.ack_rate / 100
  · simp [h1]
  · by_cases h2 : 45/100 ≤ q.2.score
    · simp [h1, h2]
    · simp [h1, h2]

/-- A concrete profile with score 0.79 and acknowledgement rate 100%. -/
def profW : UserProfile :=
  { opens := 1, acks := 1, ack_rate := 100, avg_delay_minutes := some 1,
    score := 79/100, classification := "", outstanding := 0 }

/-- The profile `profW` after the heuristic pass, with its user name. -/
def profWlabeled : String × UserProfile :=
  ("u", { profW with
            classification := heuristicLabel profW.score profW.ack_rate })

theorem heuristic_total_deterministic_witness :
    profWlabeled.2.classification = "Highly Engaged" ∨
    profWlabeled.2.classification = "Steady" ∨
    profWlabeled.2.classification = "Needs Attention" :=
  (heuristic_total_deterministic [("u", profW)] profWlabeled
    (by simp [applyHeuristic, profWlabeled])).2.1

/-- C8: on the empty event sequence the report builder returns a report with
totalEvents = 0, totalUsers = 0, conversion rate 0, no average delay, empty
leaders and risks, engine "heuristic", and exactly one fixed
data-collection insight; the result does not depend on the clustering
backend, mirroring that the reconstructor, scorer and classifier are never
invoked (the code returns before calling them). -/
theorem empty_events_degenerate_report (kmeansAvailable : Bool)
    (fit_predict : List (List ℚ) → Except Unit (List ℤ)) :
    generate_user_analytics kmeansAvailable fit_predict []
      = { overall := { total_events := 0, total_users := 0,
                       conversion_rate := 0, avg_ack_minutes := none },
          leaders := [], risks := [],
          insights := ["No engagement events recorded yet. Ask users to open and acknowledge announcements to gather data."],
          engine := "heuristic" } := by
  simp [generate_user_analytics]

/-- A user with 20000 opens and 12999 acks: the exact acknowledgement rate
is 0.64995 (just below 0.65) but the percentage rounded to one decimal is
65.0. -/
def statsA : UserStats :=
  { open_count := 20000, ack_count := 12999, ack_delays := [0],
    last_event_ts := none, targets := ∅ }

/-- A user with 20000 opens and 11999 acks: the exact acknowledgement rate
is 0.59995 (just below 0.6) but the percentage rounded to one decimal is
60.0. -/
def statsB : UserStats :=
  { open_count := 20000, ack_count := 11999, ack_delays := [0],
    last_event_ts := none, targets := ∅ }

/-- C10: the acknowledgement rate compared against the thresholds is the
rounded one-decimal percentage divided by 100, not the exact ratio: a user
with exact rate 12999/20000 < 0.65 is classified "Highly Engaged" because
the rounded rate is 65.0% (the exact-ratio rule would give "Steady"), and a
user with exact rate 11999/20000 < 0.6 and no outstanding sessions is
excluded from the risk candidates because the rounded rate is 60.0%. -/
theorem thresholds_use_rounded_rate :
    (profile_users_with false fpErr [("u", statsA)] []).1.map
        (fun p => p.2.classification) = ["Highly Engaged"] ∧
    (statsA.ack_count : ℚ) / (statsA.open_count : ℚ) < 65/100 ∧
    riskCandidatesOf (profile_users_with false fpErr [("v", statsB)] []).1
      = [] ∧
    (statsB.ack_count : ℚ) / (statsB.open_count : ℚ) < 6/10 := by
  have hzero : roundTo 1 (0:ℚ) = 0 := by
    rw [roundTo_eq_of_bounds 1 0 0 (by norm_num) (by norm_num)]
    norm_num
  have hrateA : roundTo 1 ((12999:ℚ)/200) = 65 := by
    rw [roundTo_eq_of_bounds 1 ((12999:ℚ)/200) 650 (by norm_num)
      (by norm_num)]
    norm_num
  have hrateB : roundTo 1 ((11999:ℚ)/200) = 60 := by
    rw [roundTo_eq_of_bounds 1 ((11999:ℚ)/200) 600 (by norm_num)
      (by norm_num)]
    norm_num
  have hscoreA : calculate_engagement_score statsA = 79/100 := by
    have hb : calculate_engagement_score statsA
        = roundTo 4 (78997/100000) := by
      norm_num [calculate_engagement_score, statsA, mean, min_def, max_def]
    rw [hb, roundTo_eq_of_bounds 4 ((78997:ℚ)/100000) 7900 (by norm_num)
      (by norm_num)]
    norm_num
  have hscoreB : calculate_engagement_score statsB = 19/25 := by
    have hb : calculate_engagement_score statsB
        = roundTo 4 (75997/100000) := by
      norm_num [calculate_engagement_score, statsB, mean, min_def, max_def]
    rw [hb, roundTo_eq_of_bounds 4 ((75997:ℚ)/100000) 7600 (by norm_num)
      (by norm_num)]
    norm_num
  have hmkA : mkProfile statsA 0
      = { opens := 20000, acks := 12999, ack_rate := 65,
          avg_delay_minutes := some 0, score := 79/100,
          classification := "", outstanding := 0 } := by
    norm_num [mkProfile, statsA, mean, hscoreA]
    exact ⟨hrateA, hzero, hscoreA⟩
  have hmkB : mkProfile statsB 0
      = { opens := 20000, acks := 11999, ack_rate := 60,
          avg_delay_minutes := some 0, score := 19/25,
          classification := "", outstanding := 0 } := by
    norm_num [mkProfile, statsB, mean, hscoreB]
    exact ⟨hrateB, hzero, hscoreB⟩
  have hpA : (profile_users_with false fpErr [("u", statsA)] []).1
      = applyHeuristic [("u", mkProfile statsA 0)] := by
    simp [profile_users_with, lookupA]
  have hpB : (profile_users_with false fpErr [("v", statsB)] []).1
      = applyHeuristic [("v", mkProfile statsB 0)] := by
    simp [profile_users_with, lookupA]
  refine ⟨?_, by norm_num [statsA], ?_, by norm_num [statsB]⟩
  · rw [hpA]
    simp only [applyHeuristic, hmkA, List.map_cons, List.map_nil]
    norm_num [heuristicLabel]
  · rw [hpB]
    simp only [applyHeuristic, hmkB, List.map_cons, List.map_nil]
    norm_num [riskCandidatesOf, List.filterMap]
